import Mathlib

/-!
Shallow embedding of `cowcell` (src/src/lib.rs): a cell-like type with
clone-on-write borrowing.  `CowCell<T>` owns a value; `CowRef<'a, T>` holds a
shared reference to the cell plus an optional private copy, materialized on
first mutable access.

Rust references are modelled by values: a `CowRef`'s `ptr : &'a CowCell<T>`
becomes the cell value it points to (sound because Rust's borrow rules freeze
the cell while any `CowRef` exists).  `Clone::clone` duplicates a value; at
the value level this embedding denotes it by the identity (a clone is a fresh
value equal to the original).  The number of clone *calls* an operation
performs is tracked by the separate `_clones` functions, read off the code
paths of `get_or_insert_with` / `unwrap_or_else`.
-/

/-- Value-level denotation of Rust's `Clone::clone`: a fresh value equal to
the original. -/
def rustClone {T : Type} (v : T) : T := v

/-- `CowCell<T>` (src/src/lib.rs:31-33): a single private field `val: T`. -/
structure CowCell (T : Type) where
  val : T
deriving Repr, DecidableEq

/-- `CowCell::new` (lib.rs:38-40): wraps the value. -/
def CowCell.new {T : Type} (val : T) : CowCell T := { val := val }

/-- `CowCell::into_inner` (lib.rs:50-52): consumes the cell, returns `self.val`. -/
def CowCell.into_inner {T : Type} (c : CowCell T) : T := c.val

/-- `Deref for CowCell` (lib.rs:55-61): `&self.val`. -/
def CowCell.deref {T : Type} (c : CowCell T) : T := c.val

/-- `From<T> for CowCell<T>` (lib.rs:63-68): `Self::new(val)`. -/
def CowCell.fromVal {T : Type} (val : T) : CowCell T := CowCell.new val

/-- `CowRef<'a, T>` (lib.rs:77-80): a reference `ptr` to the originating
`CowCell` and an optional private copy `copy: Option<T>`. -/
structure CowRef (T : Type) where
  ptr : CowCell T
  copy : Option T
deriving Repr, DecidableEq

/-- `CowRef::new` (lib.rs:85-87): `Self { ptr, copy: None }`. -/
def CowRef.new {T : Type} (ptr : CowCell T) : CowRef T := { ptr := ptr, copy := none }

/-- `CowCell::borrow` (lib.rs:44-46): `CowRef::new(self)`. -/
def CowCell.borrow {T : Type} (c : CowCell T) : CowRef T := CowRef.new c

/-- `From<&'a CowCell<T>> for CowRef<'a, T>` (lib.rs:129-134): `Self::new(cell)`. -/
def CowRef.fromCell {T : Type} (cell : CowCell T) : CowRef T := CowRef.new cell

/-- `CowRef::get_cell` (lib.rs:92-94): `self.ptr`. -/
def CowRef.get_cell {T : Type} (r : CowRef T) : CowCell T := r.ptr

/-- `CowRef::get_ref` (lib.rs:98-103): the copy if present, else the cell's
value. -/
def CowRef.get_ref {T : Type} (r : CowRef T) : T :=
  match r.copy with
  | some v => v
  | none => r.ptr.val

/-- `CowRef::is_cloned` (lib.rs:108-110): `self.copy.is_some()`. -/
def CowRef.is_cloned {T : Type} (r : CowRef T) : Bool := r.copy.isSome

/-- Handle state after `CowRef::get_mut` (lib.rs:117-119):
`self.copy.get_or_insert_with(|| self.ptr.val.clone())` leaves an existing
copy untouched and otherwise inserts a clone of the cell's value. -/
def CowRef.get_mut_state {T : Type} (r : CowRef T) : CowRef T :=
  match r.copy with
  | some _ => r
  | none => { r with copy := some (rustClone r.ptr.val) }

/-- The value behind the `&mut T` that `CowRef::get_mut` returns: the
(possibly just inserted) content of the copy slot. -/
def CowRef.get_mut_ref {T : Type} (r : CowRef T) : T :=
  match r.copy with
  | some v => v
  | none => rustClone r.ptr.val

/-- Number of clone calls `CowRef::get_mut` performs: the closure passed to
`get_or_insert_with` runs only when `copy` is `None`. -/
def CowRef.get_mut_clones {T : Type} (r : CowRef T) : Nat :=
  match r.copy with
  | some _ => 0
  | none => 1

/-- A write of `t` through the `&mut T` returned by `CowRef::get_mut`: the
reference aliases the copy slot (always populated after the call), so the
write replaces the slot's content.  The cell behind `ptr` is untouched. -/
def CowRef.set_after_mut {T : Type} (r : CowRef T) (t : T) : CowRef T :=
  { r.get_mut_state with copy := some t }

/-- A whole mutable access `*r = f (*r)` (e.g. `*borrow += 1`):
`deref_mut`/`get_mut` materializes the copy and returns a reference into it,
then the update `f` lands on the copy. -/
def CowRef.mut_access {T : Type} (r : CowRef T) (f : T → T) : CowRef T :=
  r.set_after_mut (f r.get_mut_ref)

/-- `CowRef::into_inner` (lib.rs:124-126):
`self.copy.unwrap_or_else(|| self.ptr.val.clone())`. -/
def CowRef.into_inner {T : Type} (r : CowRef T) : T :=
  match r.copy with
  | some v => v
  | none => rustClone r.ptr.val

/-- Number of clone calls `CowRef::into_inner` performs: the closure passed
to `unwrap_or_else` runs only when `copy` is `None`. -/
def CowRef.into_inner_clones {T : Type} (r : CowRef T) : Nat :=
  match r.copy with
  | some _ => 0
  | none => 1

/-- `Deref for CowRef` (lib.rs:136-143): `self.get_ref()`. -/
def CowRef.deref {T : Type} (r : CowRef T) : T := r.get_ref

/-- `DerefMut for CowRef` (lib.rs:145-150) delegates to `get_mut`: handle
state after the call. -/
def CowRef.deref_mut_state {T : Type} (r : CowRef T) : CowRef T := r.get_mut_state

/-- `DerefMut for CowRef` (lib.rs:145-150) delegates to `get_mut`: value
behind the returned `&mut T`. -/
def CowRef.deref_mut_ref {T : Type} (r : CowRef T) : T := r.get_mut_ref

/-- Rust traits occurring in the `#[derive(...)]` attributes of the crate. -/
inductive RustTrait : Type
  | debug
  | cloneT
  | copyT
  | defaultT
  | partEq
  | eqT
  | partOrd
  | ordT
deriving Repr, DecidableEq

/-- The derive list of `CowCell` (lib.rs:27-29):
`#[derive(Debug, Clone, Copy, Default, PartialEq, Eq, PartialOrd, Ord)]`. -/
def cowCellDerives : List RustTrait :=
  [.debug, .cloneT, .copyT, .defaultT, .partEq, .eqT, .partOrd, .ordT]

/-- The derive list of `CowRef` (lib.rs:76): `#[derive(Debug)]`. -/
def cowRefDerives : List RustTrait := [.debug]

/-- The derived `Ord` of the single-field struct `CowCell` compares the one
field `val`. -/
instance {T : Type} [Ord T] : Ord (CowCell T) where
  compare a b := compare a.val b.val

/-- The derived `Default` of `CowCell` wraps `T::default()`. -/
instance {T : Type} [Inhabited T] : Inhabited (CowCell T) where
  default := { val := default }

/-- Two handles borrowed from one shared `CowCell`: the Rust picture is a
single cell referenced by both handles' `ptr` fields, so the cell appears
once and each handle contributes only its private `copy` slot. -/
structure World (T : Type) where
  cell : CowCell T
  copy1 : Option T
  copy2 : Option T

/-- The first handle of a `World`, as the `CowRef` value it denotes. -/
def World.handle1 {T : Type} (w : World T) : CowRef T :=
  { ptr := w.cell, copy := w.copy1 }

/-- The second handle of a `World`, as the `CowRef` value it denotes. -/
def World.handle2 {T : Type} (w : World T) : CowRef T :=
  { ptr := w.cell, copy := w.copy2 }

/-- Operations a caller can perform on a handle: a bare `get_mut`, a write
through the reference `get_mut` returned, or a whole mutable access
`*h = f (*h)`. -/
inductive HOp (T : Type) : Type
  | getMut : HOp T
  | setAfterMut : T → HOp T
  | mutAccess : (T → T) → HOp T

/-- Run one operation on the first handle.  Each operation writes only the
handle's own `copy` slot (lib.rs:117-119 touches only `self.copy`), so the
shared cell and the other handle's slot carry over unchanged. -/
def World.step1 {T : Type} (w : World T) : HOp T → World T
  | .getMut => { w with copy1 := (w.handle1.get_mut_state).copy }
  | .setAfterMut t => { w with copy1 := (w.handle1.set_after_mut t).copy }
  | .mutAccess f => { w with copy1 := (w.handle1.mut_access f).copy }

/-- Run a sequence of operations on the first handle. -/
def World.run1 {T : Type} (w : World T) (ops : List (HOp T)) : World T :=
  ops.foldl World.step1 w

theorem World.step1_cell {T : Type} (w : World T) (op : HOp T) :
    (w.step1 op).cell = w.cell := by
  cases op <;> rfl

theorem World.step1_copy2 {T : Type} (w : World T) (op : HOp T) :
    (w.step1 op).copy2 = w.copy2 := by
  cases op <;> rfl

theorem World.run1_cell {T : Type} (w : World T) (ops : List (HOp T)) :
    (w.run1 ops).cell = w.cell := by
  induction ops generalizing w with
  | nil => rfl
  | cons op ops ih =>
      have h1 : (w.step1 op).cell = w.cell := World.step1_cell w op
      have h2 : ((w.step1 op).run1 ops).cell = (w.step1 op).cell := ih (w.step1 op)
      calc (w.run1 (op :: ops)).cell = ((w.step1 op).run1 ops).cell := rfl
        _ = (w.step1 op).cell := h2
        _ = w.cell := h1

theorem World.run1_copy2 {T : Type} (w : World T) (ops : List (HOp T)) :
    (w.run1 ops).copy2 = w.copy2 := by
  induction ops generalizing w with
  | nil => rfl
  | cons op ops ih =>
      have h1 : (w.step1 op).copy2 = w.copy2 := World.step1_copy2 w op
      have h2 : ((w.step1 op).run1 ops).copy2 = (w.step1 op).copy2 := ih (w.step1 op)
      calc (w.run1 (op :: ops)).copy2 = ((w.step1 op).run1 ops).copy2 := rfl
        _ = (w.step1 op).copy2 := h2
        _ = w.copy2 := h1

/-- Claim C1: the Uncloned-to-Cloned transition is one-way and the clone
happens exactly once.  On a fresh handle, the first `get_mut` clones the
cell's value into the copy slot (one clone call) and leaves the handle
Cloned.  On a Cloned handle, `get_mut` performs zero clone calls and leaves
the handle state unchanged (same copy), and no state-changing operation
(`get_mut`, a write through the returned reference, or a whole mutable
access) ever makes `is_cloned` go from `true` back to `false`. -/
theorem c1_clone_exactly_once {T : Type} (c : CowCell T) (r : CowRef T)
    (h : r.is_cloned = true) :
    ((c.borrow).get_mut_state).copy = some (rustClone c.val)
    ∧ (c.borrow).get_mut_clones = 1
    ∧ ((c.borrow).get_mut_state).is_cloned = true
    ∧ r.get_mut_state = r
    ∧ r.get_mut_clones = 0
    ∧ (r.get_mut_state).is_cloned = true
    ∧ (∀ t, (r.set_after_mut t).is_cloned = true)
    ∧ (∀ f, (r.mut_access f).is_cloned = true) := by
  obtain ⟨v, hv⟩ := Option.isSome_iff_exists.mp (by simpa [CowRef.is_cloned] using h)
  refine ⟨rfl, rfl, rfl, ?_, ?_, ?_, ?_, ?_⟩ <;>
    simp [CowRef.get_mut_state, CowRef.get_mut_clones, CowRef.is_cloned,
      CowRef.set_after_mut, CowRef.mut_access, hv]

/-- Witness for C1 at `T = Nat`, cell `CowCell.new 44`, Cloned handle with
copy `45`. -/
theorem c1_clone_exactly_once_witness :
    ((CowCell.new 44).borrow.get_mut_state).copy = some (rustClone 44)
    ∧ (CowRef.mk (CowCell.new 44) (some 45)).get_mut_state
        = CowRef.mk (CowCell.new 44) (some 45) := by
  have h := c1_clone_exactly_once (CowCell.new 44)
    (CowRef.mk (CowCell.new 44) (some 45)) (by decide)
  exact ⟨h.1, h.2.2.2.1⟩

/-- Claim C2: after exactly one mutable access `*H = f (*H)` on a fresh
handle over a cell holding `v`, the handle is Cloned, reads `f v`, and the
cell it points to still holds `v`. -/
theorem c2_single_mutable_access {T : Type} (v : T) (f : T → T) :
    (((CowCell.new v).borrow.mut_access f).is_cloned = true)
    ∧ (((CowCell.new v).borrow.mut_access f).get_ref = f v)
    ∧ ((((CowCell.new v).borrow.mut_access f).get_cell).val = v)
    ∧ ((CowCell.new v).deref = v) := by
  refine ⟨rfl, rfl, rfl, rfl⟩

/-- Claim C3: no handle operation modifies the originating cell (`get_cell`
is preserved by every state-changing operation), and once the copy slot
holds `some v`, all reads (`get_ref`, `get_mut`, `into_inner`) yield the
copy `v`, independently of the cell behind `ptr`. -/
theorem c3_cell_never_modified {T : Type} (r : CowRef T) (t v : T) (f : T → T)
    (h : r.copy = some v) :
    (∀ r' : CowRef T, (r'.get_mut_state).get_cell = r'.get_cell
      ∧ (r'.set_after_mut t).get_cell = r'.get_cell
      ∧ (r'.mut_access f).get_cell = r'.get_cell)
    ∧ r.get_ref = v
    ∧ r.get_mut_ref = v
    ∧ r.into_inner = v
    ∧ (∀ c' : CowCell T, (CowRef.mk c' (some v)).get_ref = v
      ∧ (CowRef.mk c' (some v)).get_mut_ref = v
      ∧ (CowRef.mk c' (some v)).into_inner = v) := by
  refine ⟨fun r' => ?_, ?_, ?_, ?_, fun c' => ⟨rfl, rfl, rfl⟩⟩
  · cases hc : r'.copy <;>
      simp [CowRef.get_mut_state, CowRef.get_cell, CowRef.set_after_mut,
        CowRef.mut_access, hc]
  · simp [CowRef.get_ref, h]
  · simp [CowRef.get_mut_ref, h]
  · simp [CowRef.into_inner, h]

/-- Witness for C3 at `T = Nat` with a Cloned handle whose copy is `7`. -/
theorem c3_cell_never_modified_witness :
    (CowRef.mk (CowCell.new 3) (some 7)).get_ref = 7
    ∧ (CowRef.mk (CowCell.new 3) (some 7)).into_inner = 7 := by
  have h := c3_cell_never_modified (CowRef.mk (CowCell.new 3) (some 7))
    0 7 id (by decide)
  exact ⟨h.2.1, h.2.2.2.1⟩

/-- Claim C4: a freshly created handle (via `borrow` or the `From`
conversion) is Uncloned, its copy slot is empty (so no clone of `T` was
performed), and it reads the cell's original value. -/
theorem c4_fresh_handle {T : Type} (c : CowCell T) :
    ((c.borrow).is_cloned = false)
    ∧ ((c.borrow).get_ref = c.deref)
    ∧ ((c.borrow).copy = none)
    ∧ ((c.borrow).get_cell = c)
    ∧ (CowRef.fromCell c = c.borrow) := by
  exact ⟨rfl, rfl, rfl, rfl, rfl⟩

/-- Claim C5: `into_inner` returns the copy with zero clone calls when the
handle is Cloned, and otherwise performs one clone call and returns a clone
of the cell's value (the value at borrow time); a fresh handle's
`into_inner` yields the cell's value directly. -/
theorem c5_into_inner {T : Type} (r : CowRef T) (v : T) (h : r.copy = some v) :
    r.into_inner = v
    ∧ r.into_inner_clones = 0
    ∧ (∀ r' : CowRef T, r'.copy = none →
        r'.into_inner = rustClone r'.ptr.val ∧ r'.into_inner_clones = 1)
    ∧ (∀ c : CowCell T, (c.borrow).into_inner = rustClone c.val) := by
  refine ⟨?_, ?_, fun r' h' => ?_, fun c => rfl⟩
  · simp [CowRef.into_inner, h]
  · simp [CowRef.into_inner_clones, h]
  · constructor <;> simp [CowRef.into_inner, CowRef.into_inner_clones, h']

/-- Witness for C5 at `T = Nat` with a Cloned handle whose copy is `9`. -/
theorem c5_into_inner_witness :
    (CowRef.mk (CowCell.new 2) (some 9)).into_inner = 9
    ∧ (CowRef.mk (CowCell.new 2) (some 9)).into_inner_clones = 0 := by
  have h := c5_into_inner (CowRef.mk (CowCell.new 2) (some 9)) 9 (by decide)
  exact ⟨h.1, h.2.1⟩

/-- Counterexample to C6 as stated: the handle type does not forward
equality, ordering or default to the wrapped value — `CowRef` derives only
`Debug` (lib.rs:76), so none of `PartialEq`, `Eq`, `PartialOrd`, `Ord`,
`Default` exist on handles. -/
theorem c6_forwarding_counterexample :
    RustTrait.partEq ∉ cowRefDerives
    ∧ RustTrait.eqT ∉ cowRefDerives
    ∧ RustTrait.partOrd ∉ cowRefDerives
    ∧ RustTrait.ordT ∉ cowRefDerives
    ∧ RustTrait.defaultT ∉ cowRefDerives := by
  decide

/-- Claim C6 amended: only the `CowCell` type transparently forwards
equality, ordering and default to the wrapped value (two cells are equal iff
their values are, comparison compares the values, the default cell wraps the
default value, and all of `PartialEq`/`Eq`/`PartialOrd`/`Ord`/`Default` are
derived on it); the handle type derives only `Debug` and forwards none of
these facilities. -/
theorem c6_forwarding_amended {T : Type} [Ord T] [Inhabited T]
    (a b : CowCell T) :
    (a = b ↔ a.val = b.val)
    ∧ compare a b = compare a.val b.val
    ∧ (default : CowCell T).val = (default : T)
    ∧ RustTrait.partEq ∈ cowCellDerives
    ∧ RustTrait.eqT ∈ cowCellDerives
    ∧ RustTrait.partOrd ∈ cowCellDerives
    ∧ RustTrait.ordT ∈ cowCellDerives
    ∧ RustTrait.defaultT ∈ cowCellDerives
    ∧ cowRefDerives = [RustTrait.debug] := by
  refine ⟨?_, rfl, rfl, by decide, by decide, by decide, by decide, by decide, rfl⟩
  constructor
  · intro h
    rw [h]
  · intro h
    cases a
    cases b
    simp_all

/-- Claim C7: wrapping and unwrapping round-trips — `CowCell.new v` followed
by `into_inner` gives back `v`, and reading a cell directly (immutable
dereference) always yields the stored value. -/
theorem c7_cell_roundtrip {T : Type} (v : T) (c : CowCell T) :
    ((CowCell.new v).into_inner = v)
    ∧ ((CowCell.new v).deref = v)
    ∧ (c.deref = c.val)
    ∧ (CowCell.new c.val = c) := by
  exact ⟨rfl, rfl, rfl, rfl⟩

/-- Claim C8: the operator/conversion glue equals the named operations — the
handle's read dereference is `get_ref`, its write dereference is `get_mut`
(same returned reference and same state effect), `From<T>` is
`CowCell::new`, and `From<&CowCell<T>>` is `borrow`. -/
theorem c8_glue_equivalence {T : Type} (v : T) (c : CowCell T) (r : CowRef T) :
    (r.deref = r.get_ref)
    ∧ (r.deref_mut_state = r.get_mut_state)
    ∧ (r.deref_mut_ref = r.get_mut_ref)
    ∧ (CowCell.fromVal v = CowCell.new v)
    ∧ (CowRef.fromCell c = c.borrow) := by
  exact ⟨rfl, rfl, rfl, rfl, rfl⟩

/-- Claim C9: handles over the same cell are independent — any sequence of
operations on the first handle (bare `get_mut`, writes through its returned
reference, whole mutable accesses) leaves the shared cell, the second
handle, the value it observes and its `is_cloned` state all unchanged. -/
theorem c9_handles_independent {T : Type} (w : World T) (ops : List (HOp T)) :
    ((w.run1 ops).cell = w.cell)
    ∧ ((w.run1 ops).handle2 = w.handle2)
    ∧ (((w.run1 ops).handle2).get_ref = (w.handle2).get_ref)
    ∧ (((w.run1 ops).handle2).is_cloned = (w.handle2).is_cloned) := by
  have hcell : (w.run1 ops).cell = w.cell := World.run1_cell w ops
  have hcopy : (w.run1 ops).copy2 = w.copy2 := World.run1_copy2 w ops
  have h2 : (w.run1 ops).handle2 = w.handle2 := by
    simp [World.handle2, hcell, hcopy]
  exact ⟨hcell, h2, by rw [h2], by rw [h2]⟩

/-- Claim C10: a bare `get_mut` does not change the observed value — on an
Uncloned handle it initializes the copy slot to a clone of the cell's value,
so `get_ref` afterwards still equals the cell's original value (and
`get_mut` preserves `get_ref` on every handle). -/
theorem c10_get_mut_preserves_value {T : Type} (c : CowCell T) (r : CowRef T)
    (h : r.is_cloned = false) :
    ((r.get_mut_state).get_ref = r.get_ref)
    ∧ ((r.get_mut_state).get_ref = r.ptr.val)
    ∧ ((r.get_mut_state).copy = some (rustClone r.ptr.val))
    ∧ (((c.borrow).get_mut_state).get_ref = c.val)
    ∧ (∀ r' : CowRef T, (r'.get_mut_state).get_ref = r'.get_ref) := by
  have hnone : r.copy = none := by
    cases hc : r.copy
    · rfl
    · simp [CowRef.is_cloned, hc] at h
  refine ⟨?_, ?_, ?_, rfl, fun r' => ?_⟩
  · simp [CowRef.get_mut_state, CowRef.get_ref, hnone, rustClone]
  · simp [CowRef.get_mut_state, CowRef.get_ref, hnone, rustClone]
  · simp [CowRef.get_mut_state, hnone]
  · cases hc : r'.copy <;>
      simp [CowRef.get_mut_state, CowRef.get_ref, hc, rustClone]

/-- Witness for C10 at `T = Nat` with the fresh handle over `CowCell.new 5`. -/
theorem c10_get_mut_preserves_value_witness :
    (((CowCell.new 5).borrow).get_mut_state).get_ref = ((CowCell.new 5).borrow).get_ref
    ∧ (((CowCell.new 5).borrow).get_mut_state).get_ref = 5 := by
  have h := c10_get_mut_preserves_value (CowCell.new 5)
    ((CowCell.new 5).borrow) (by decide)
  exact ⟨h.1, h.2.1⟩
